import Mathlib

/-!
Verification of the heapster metrics service against its specification.

The development shallowly embeds the relevant parts of the program:

* the startup flag validation and source-URI handling of the main binary
  (`validateFlags`, `getKubernetesAddress`, the source-count check in `main`);
* the health check of the heapster apiserver
  (`healthzChecker` in metrics/cmd/heapster-apiserver/app/server.go);
* the per-node Summary decoder of the summary source (the implementation file
  is not among the given sources, so it is modelled from the specification,
  pinned down by metrics/sources/summary/summary_test.go);
* the elasticsearch events sink's `ExportEvents`/`eventToPoint`
  (events/sinks/elasticsearch/driver.go).

Machine integers are modelled as `Int`/`Nat`; Go `time.Time`/`time.Duration`
values are modelled as integer nanosecond counts, and `Timestamp.String()` as
`toString` of that integer.  Fallible Go code returning `(T, error)` is
modelled with `Except`/`Option`.
-/

/-- A source or sink URI as parsed by the repeatable `--source`/`--sink`
flags: `Key` is the scheme part before the first `:`, `Val` the remainder
(modelled as the raw URL string). -/
structure Uri where
  key : String
  val : String
deriving DecidableEq

/-- The startup flags checked by `validateFlags` in the main binary
(src/unnamed/part_000).  Durations are in nanoseconds, matching Go's
`time.Duration`; the file-name flags keep only what the checks read,
namely the string length. -/
structure HeapsterFlags where
  metricResolution : Int
  tlsCert : String
  tlsKey : String
  tlsClientCA : String
deriving DecidableEq

/-- Go's `5 * time.Second` in nanoseconds. -/
def fiveSeconds : Int := 5 * 1000000000

/-- From `validateFlags` (src/unnamed/part_000, lines 236-247): reject a
metric resolution under five seconds, a TLS certificate without a key or a
key without a certificate, and a TLS client CA without a certificate. -/
def validateFlags (f : HeapsterFlags) : Except String Unit :=
  if f.metricResolution < fiveSeconds then
    Except.error ("metric resolution needs to be greater than 5 seconds - " ++ toString f.metricResolution)
  else if (0 < f.tlsCert.length ∧ f.tlsKey.length = 0) ∨ (f.tlsCert.length = 0 ∧ 0 < f.tlsKey.length) then
    Except.error "both TLS certificate & key are required to enable TLS serving"
  else if 0 < f.tlsClientCA.length ∧ f.tlsCert.length = 0 then
    Except.error "client cert authentication requires TLS certificate & key"
  else
    Except.ok ()

/-- From `main` (src/unnamed/part_000, lines 113-116): after flag parsing the
program aborts fatally ("Wrong number of sources specified") unless exactly
one `--source` URI was given.  `true` means the fatal exit is reached. -/
def wrongNumberOfSources (sources : List Uri) : Bool :=
  sources.length != 1

/-- Go's `strings.SplitN(s, ".", 2)[0]`: the portion of the string before
its first `.` (the whole string when it has no `.`). -/
def schemeRoot (s : String) : String :=
  String.mk (s.data.takeWhile (fun c => c != '.'))

/-- From `getKubernetesAddress` (src/unnamed/part_000, lines 211-218): scan
the source URIs in order and return the URL of the first one whose scheme up
to the first `.` is `kubernetes`; with no such URI, fail with
"No kubernetes source found.". -/
def getKubernetesAddress (args : List Uri) : Except String String :=
  match args with
  | [] => Except.error "No kubernetes source found."
  | uri :: rest =>
    if schemeRoot uri.key = "kubernetes" then Except.ok uri.val
    else getKubernetesAddress rest

/-- A labeled metric: a metric name, a label mapping and a scalar sample. -/
structure LabeledMetric where
  name : String
  labels : List (String × String)
  value : Int
deriving DecidableEq

/-- The metrics bundle for one keyed entity, after the data model in the
specification: identity labels, named scalar metric values (keys unique) and
an ordered sequence of labeled metrics. -/
structure MetricSet where
  createTime : Int
  scrapeTime : Int
  labels : List (String × String)
  metricValues : List (String × Int)
  labeledMetrics : List LabeledMetric
deriving DecidableEq

/-- One tick's batch: a timestamp and the keyed metric sets. -/
structure DataBatch where
  timestamp : Int
  metricSets : List (String × MetricSet)
deriving DecidableEq

/-- `minMetricsCount` from server.go. -/
def minMetricsCount : Nat := 1

/-- `maxMetricsDelay` from server.go: `3 * time.Minute` in nanoseconds. -/
def maxMetricsDelay : Int := 3 * 60 * 1000000000

/-- From `healthzChecker` (server.go, lines 168-186): the check run on each
`/healthz` request, given the current time and the metric sink's latest
batch (`GetLatestDataBatch` returning nil is modelled by `none`).  An
`Except.error` answer makes the healthz handler serve HTTP 500. -/
def healthzCheck (now : Int) (latest : Option DataBatch) : Except String Unit :=
  match latest with
  | none => Except.error "could not get the latest data batch"
  | some batch =>
    if maxMetricsDelay < now - batch.timestamp then
      Except.error ("No current data batch available (latest: " ++ toString batch.timestamp ++ ").")
    else if batch.metricSets.length < minMetricsCount then
      Except.error ("Not enough metrics found in the latest data batch: " ++
        toString batch.metricSets.length ++ " (expected min. " ++ toString minMetricsCount ++ ") " ++
        toString batch.timestamp)
    else
      Except.ok ()

/-- The HTTP status the healthz handler answers with: 200 on a passing
check, 500 on a failing one. -/
def healthzHTTPStatus (now : Int) (latest : Option DataBatch) : Nat :=
  match healthzCheck now latest with
  | Except.ok _ => 200
  | Except.error _ => 500

/-- `(a ++ b).data` unfolds to the concatenation of the character lists. -/
theorem string_data_append (a b : String) : (a ++ b).data = a.data ++ b.data := by
  cases a
  cases b
  rfl

/-- String concatenation is associative. -/
theorem string_append_assoc (a b c : String) : a ++ b ++ c = a ++ (b ++ c) := by
  cases a with | mk d1 =>
  cases b with | mk d2 =>
  cases c with | mk d3 =>
  show String.mk (d1 ++ d2 ++ d3) = String.mk (d1 ++ (d2 ++ d3))
  rw [List.append_assoc]

/-- No string starting with `node:` equals one starting with `namespace:`. -/
theorem node_ne_namespace (x y : String) : "node:" ++ x ≠ "namespace:" ++ y := by
  intro h
  have h2 : ("node:" ++ x).data = ("namespace:" ++ y).data := congrArg String.data h
  rw [string_data_append, string_data_append] at h2
  have h3 : (['n', 'o', 'd', 'e', ':'] ++ x.data : List Char) =
      ['n', 'a', 'm', 'e', 's', 'p', 'a', 'c', 'e', ':'] ++ y.data := h2
  simp at h3

/-- A string never equals itself extended by a nonempty suffix. -/
theorem ne_append_of_data_ne_nil (s t : String) (h : t.data ≠ []) : s ≠ s ++ t := by
  intro he
  have h2 : s.data = s.data ++ t.data := by
    conv_lhs => rw [he]
    exact string_data_append s t
  have h3 : s.data.length = s.data.length + t.data.length := by
    conv_lhs => rw [h2]
    exact List.length_append _ _
  have h4 : t.data.length = 0 := by omega
  exact h (List.length_eq_zero.mp h4)

/-!
The per-node Summary decoder.  The decoder's implementation file is not among
the given sources (only its test, metrics/sources/summary/summary_test.go,
is), so the definitions below are modelled from the specification, section
4.1 "Decoding (per-node summary source)", with the metric names, key schema
and label keys the test exercises.  `Option` fields stand for the nullable
pointers of the decoded JSON document.
-/

/-- CPU statistics of a node or container; times in nanoseconds. -/
structure CPUStats where
  time : Int
  usageNanoCores : Option Nat
  usageCoreNanoSeconds : Option Nat
deriving DecidableEq

/-- Memory statistics of a node or container. -/
structure MemoryStats where
  time : Int
  availableBytes : Option Nat
  usageBytes : Option Nat
  workingSetBytes : Option Nat
  rssBytes : Option Nat
  pageFaults : Option Nat
  majorPageFaults : Option Nat
deriving DecidableEq

/-- Network statistics of a node or pod. -/
structure NetworkStats where
  time : Int
  rxBytes : Option Nat
  rxErrors : Option Nat
  txBytes : Option Nat
  txErrors : Option Nat
deriving DecidableEq

/-- Filesystem statistics. -/
structure FsStats where
  availableBytes : Option Nat
  capacityBytes : Option Nat
  usedBytes : Option Nat
deriving DecidableEq

/-- Statistics of one container entry of the summary document. -/
structure ContainerStats where
  name : String
  startTime : Int
  cpu : Option CPUStats
  memory : Option MemoryStats
  rootfs : Option FsStats
  logs : Option FsStats
deriving DecidableEq

/-- Filesystem statistics of one pod volume. -/
structure VolumeStats where
  name : String
  fsStats : FsStats
deriving DecidableEq

/-- The pod's identity in the summary document. -/
structure PodReference where
  name : String
  ns : String
deriving DecidableEq

/-- Statistics of one pod: network, containers and volumes. -/
structure PodStats where
  podRef : PodReference
  startTime : Int
  network : Option NetworkStats
  containers : List ContainerStats
  volumeStats : List VolumeStats
deriving DecidableEq

/-- Node-level statistics: the node itself plus its system containers. -/
structure NodeStats where
  nodeName : String
  startTime : Int
  cpu : Option CPUStats
  memory : Option MemoryStats
  network : Option NetworkStats
  fs : Option FsStats
  systemContainers : List ContainerStats
deriving DecidableEq

/-- The decoded Summary document. -/
structure Summary where
  node : NodeStats
  pods : List PodStats
deriving DecidableEq

/-- Key of a node metric set: `node:<nodeName>`. -/
def nodeKey (nodeName : String) : String :=
  "node:" ++ nodeName

/-- Key of a node system-container metric set:
`node:<nodeName>/container:<containerName>`. -/
def nodeContainerKey (nodeName containerName : String) : String :=
  nodeKey nodeName ++ "/container:" ++ containerName

/-- Key of a pod metric set: `namespace:<ns>/pod:<pod>`. -/
def podKey (nspace podName : String) : String :=
  "namespace:" ++ nspace ++ "/pod:" ++ podName

/-- Key of a pod-container metric set:
`namespace:<ns>/pod:<pod>/container:<container>`. -/
def podContainerKey (nspace podName containerName : String) : String :=
  podKey nspace podName ++ "/container:" ++ containerName

/-- The `type` label value of node metric sets. -/
def MetricSetTypeNode : String := "node"

/-- The `type` label value of node system-container metric sets. -/
def MetricSetTypeSystemContainer : String := "sys_container"

/-- The `type` label value of pod metric sets. -/
def MetricSetTypePod : String := "pod"

/-- The `type` label value of pod-container metric sets. -/
def MetricSetTypePodContainer : String := "pod_container"

/-- Modelled from the spec: canonicalisation of node system-container names,
"`kubelet → "kubelet"`, `runtime → "docker-daemon"`, `misc → "system"`.
Other names pass through untouched." -/
def systemContainerName (n : String) : String :=
  if n = "kubelet" then "kubelet"
  else if n = "runtime" then "docker-daemon"
  else if n = "misc" then "system"
  else n

/-- One metric value when the underlying statistic is present, nothing when
its pointer is null ("skip silently, do not emit a zero"). -/
def optMetric (metricName : String) (v : Option Nat) : List (String × Int) :=
  match v with
  | some x => [(metricName, Int.ofNat x)]
  | none => []

/-- Modelled from the spec: the CPU metric values of a node or container. -/
def cpuMetrics (cpu : Option CPUStats) : List (String × Int) :=
  optMetric "cpu/usage" (cpu.bind CPUStats.usageCoreNanoSeconds)

/-- Modelled from the spec: the memory metric values of a node or container. -/
def memoryMetrics (memory : Option MemoryStats) : List (String × Int) :=
  optMetric "memory/usage" (memory.bind MemoryStats.usageBytes) ++
  optMetric "memory/working_set" (memory.bind MemoryStats.workingSetBytes) ++
  optMetric "memory/rss" (memory.bind MemoryStats.rssBytes) ++
  optMetric "memory/page_faults" (memory.bind MemoryStats.pageFaults) ++
  optMetric "memory/major_page_faults" (memory.bind MemoryStats.majorPageFaults)

/-- Modelled from the spec: the network metric values of a node or pod. -/
def networkMetrics (network : Option NetworkStats) : List (String × Int) :=
  optMetric "network/rx" (network.bind NetworkStats.rxBytes) ++
  optMetric "network/rx_errors" (network.bind NetworkStats.rxErrors) ++
  optMetric "network/tx" (network.bind NetworkStats.txBytes) ++
  optMetric "network/tx_errors" (network.bind NetworkStats.txErrors)

/-- One labeled metric carrying a `resource_id` label when the statistic is
present, nothing when its pointer is null. -/
def optLabeledMetric (metricName resourceID : String) (v : Option Nat) : List LabeledMetric :=
  match v with
  | some x => [{ name := metricName, labels := [("resource_id", resourceID)], value := Int.ofNat x }]
  | none => []

/-- Modelled from the spec: per-filesystem statistics become labeled metrics
distinguished by the `resource_id` label. -/
def fsLabeledMetrics (resourceID : String) (fs : Option FsStats) : List LabeledMetric :=
  optLabeledMetric "filesystem/available" resourceID (fs.bind FsStats.availableBytes) ++
  optLabeledMetric "filesystem/limit" resourceID (fs.bind FsStats.capacityBytes) ++
  optLabeledMetric "filesystem/usage" resourceID (fs.bind FsStats.usedBytes)

/-- The scrape time of a metric set: the latest of the observation times of
its present statistics (0 when none are present). -/
def statsScrapeTime (cpu : Option CPUStats) (memory : Option MemoryStats)
    (network : Option NetworkStats) : Int :=
  max (max ((cpu.map CPUStats.time).getD 0) ((memory.map MemoryStats.time).getD 0))
    ((network.map NetworkStats.time).getD 0)

/-- Modelled from the spec: the metric set decoded from one container entry
(pod container or node system container); `setType` is its `type` label and
`containerName` the (possibly canonicalised) container name. -/
def containerMetricSet (setType nodeName containerName : String)
    (c : ContainerStats) : MetricSet :=
  { createTime := c.startTime
    scrapeTime := statsScrapeTime c.cpu c.memory none
    labels := [("type", setType), ("nodename", nodeName), ("container_name", containerName)]
    metricValues := cpuMetrics c.cpu ++ memoryMetrics c.memory
    labeledMetrics := fsLabeledMetrics "/" c.rootfs ++ fsLabeledMetrics "logs" c.logs }

/-- Modelled from the spec: the node-level metric set. -/
def nodeMetricSet (node : NodeStats) : MetricSet :=
  { createTime := node.startTime
    scrapeTime := statsScrapeTime node.cpu node.memory node.network
    labels := [("type", MetricSetTypeNode), ("nodename", node.nodeName)]
    metricValues := cpuMetrics node.cpu ++ memoryMetrics node.memory ++ networkMetrics node.network
    labeledMetrics := fsLabeledMetrics "/" node.fs }

/-- Modelled from the spec: the pod-level metric set, with one labeled
metric per present per-volume filesystem statistic, labeled
`resource_id = "Volume:<name>"`. -/
def podMetricSet (p : PodStats) : MetricSet :=
  { createTime := p.startTime
    scrapeTime := (p.network.map NetworkStats.time).getD 0
    labels := [("type", MetricSetTypePod), ("namespace_name", p.podRef.ns), ("pod_name", p.podRef.name)]
    metricValues := networkMetrics p.network
    labeledMetrics := (p.volumeStats.map (fun v => fsLabeledMetrics ("Volume:" ++ v.name) (some v.fsStats))).flatten }

/-- Modelled from the spec: insert a container into the accumulated list,
treating `(name, startTime)` as its identity; on a duplicate name keep the
entry with the greatest `startTime` (the terminated sibling is discarded). -/
def insertLatest (acc : List ContainerStats) (c : ContainerStats) : List ContainerStats :=
  match acc.find? (fun d => d.name == c.name) with
  | none => acc ++ [c]
  | some d =>
    if d.startTime < c.startTime then
      acc.map (fun d2 => if d2.name == c.name then c else d2)
    else
      acc

/-- Modelled from the spec: per pod, deduplicate the container entries by
name, keeping for every name the entry with the greatest `startTime`. -/
def latestContainers (cs : List ContainerStats) : List ContainerStats :=
  cs.foldl insertLatest []

/-- The per-name selection `insertLatest` realises, folded over the entries
whose name is `nm`: keep the entry with the greatest `startTime`, the first
one on a tie.  Used to state what `latestContainers` keeps. -/
def bestStep (nm : String) (o : Option ContainerStats) (c : ContainerStats) :
    Option ContainerStats :=
  if c.name = nm then
    match o with
    | none => some c
    | some d => if d.startTime < c.startTime then some c else some d
  else o

/-- Modelled from the spec: decode one pod's statistics into the pod metric
set followed by one metric set per live container. -/
def decodePodStats (nodeName : String) (p : PodStats) : List (String × MetricSet) :=
  (podKey p.podRef.ns p.podRef.name, podMetricSet p) ::
    (latestContainers p.containers).map (fun c =>
      (podContainerKey p.podRef.ns p.podRef.name c.name,
        containerMetricSet MetricSetTypePodContainer nodeName c.name c))

/-- Modelled from the spec: decode the node's statistics into the node
metric set followed by one metric set per system container, under the
canonicalised container name. -/
def decodeNodeStats (node : NodeStats) : List (String × MetricSet) :=
  (nodeKey node.nodeName, nodeMetricSet node) ::
    node.systemContainers.map (fun c =>
      (nodeContainerKey node.nodeName (systemContainerName c.name),
        containerMetricSet MetricSetTypeSystemContainer node.nodeName (systemContainerName c.name) c))

/-- Modelled from the spec: `decodeSummary`, producing the keyed metric sets
of one scrape of the summary source (the batch's `metricSets`). -/
def decodeSummary (s : Summary) : List (String × MetricSet) :=
  decodeNodeStats s.node ++ (s.pods.map (decodePodStats s.node.nodeName)).flatten

/-!
The elasticsearch events sink (events/sinks/elasticsearch/driver.go).
A `kube_api.Event` is abstracted to the fields the sink reads; the outcome
of `json.MarshalIndent` on the event is carried in the event itself
(`marshalIndentResult = none` models a serialisation failure).
-/

/-- The fields of a kubernetes event that `eventToPoint` reads. -/
structure Event where
  uid : String
  lastTimestamp : Int
  involvedObjectKind : String
  involvedObjectUID : String
  involvedObjectName : String
  sourceHost : String
  marshalIndentResult : Option String
deriving DecidableEq

/-- From `getEventValue` (driver.go, lines 52-59): JSON-serialise the event,
propagating a serialisation error. -/
def getEventValue (e : Event) : Except String String :=
  match e.marshalIndentResult with
  | some s => Except.ok s
  | none => Except.error "json: unsupported value"

/-- A point to be written to elasticsearch. -/
structure EsSinkPoint where
  eventValue : String
  eventTimestamp : Int
  eventTags : List (String × String)
deriving DecidableEq

/-- From `eventToPoint` (driver.go, lines 61-79): Go's `(*EsSinkPoint, error)`
pair; the pointer is nil (`none`) exactly on the error path. -/
def eventToPoint (e : Event) : Option EsSinkPoint × Option String :=
  match getEventValue e with
  | Except.error err => (none, some err)
  | Except.ok value =>
    (some { eventValue := value
            eventTimestamp := e.lastTimestamp
            eventTags :=
              (if e.involvedObjectKind = "Pod" then
                [("eventID", e.uid), ("pod_id", e.involvedObjectUID), ("pod_name", e.involvedObjectName)]
              else
                [("eventID", e.uid)]) ++ [("hostname", e.sourceHost)] },
     none)

/-- From `ExportEvents` (driver.go, lines 81-95): convert and save every
event of the batch in order.  When `eventToPoint` fails the code only logs
the error and then reads `point.EventTimestamp` and `*point` from the nil
pointer; that dereference (a Go runtime panic) is modelled as `none`.  A
`some` answer lists the points handed to `saveData`. -/
def exportEvents (events : List Event) : Option (List EsSinkPoint) :=
  match events with
  | [] => some []
  | e :: rest =>
    match eventToPoint e with
    | (some point, _) =>
      match exportEvents rest with
      | some saved => some (point :: saved)
      | none => none
    | (none, _) => none

/-!
Concrete sample inputs used by witnesses and counterexamples.
-/

/-- A minimal metric set (used only to make batches nonempty). -/
def sampleSet : MetricSet :=
  { createTime := 0, scrapeTime := 0, labels := [("type", "node")],
    metricValues := [], labeledMetrics := [] }

/-- A batch that at time `180000000000` is exactly three minutes old. -/
def boundaryBatch : DataBatch :=
  { timestamp := 0, metricSets := [("node:test", sampleSet)] }

/-- A live container `c0` of pod `pod0` (seed-style sample values). -/
def liveC0 : ContainerStats :=
  { name := "c0", startTime := 40,
    cpu := some { time := 100, usageNanoCores := some 2000, usageCoreNanoSeconds := some 2001 },
    memory := some { time := 100, availableBytes := none, usageBytes := some 2004,
                     workingSetBytes := some 2006, rssBytes := some 2005,
                     pageFaults := some 2002, majorPageFaults := some 2003 },
    rootfs := some { availableBytes := some 2013, capacityBytes := some 2012, usedBytes := some 2011 },
    logs := some { availableBytes := some 2013, capacityBytes := some 2012, usedBytes := some 2011 } }

/-- A terminated duplicate of `c0`: same name, sixty seconds earlier start. -/
def termC0 : ContainerStats :=
  { name := "c0", startTime := -20,
    cpu := some { time := 100, usageNanoCores := some 0, usageCoreNanoSeconds := some 9999 },
    memory := some { time := 100, availableBytes := none, usageBytes := some 0,
                     workingSetBytes := some 9, rssBytes := some 9,
                     pageFaults := some 9, majorPageFaults := some 9 },
    rootfs := some { availableBytes := some 1, capacityBytes := some 1, usedBytes := some 1 },
    logs := some { availableBytes := some 1, capacityBytes := some 1, usedBytes := some 1 } }

/-- A node with no statistics and no system containers. -/
def bareNode : NodeStats :=
  { nodeName := "test", startTime := 40, cpu := none, memory := none,
    network := none, fs := none, systemContainers := [] }

/-- The two volumes of the volume scenario: `available=1030`, `used=13240`,
`capacity=2453` each. -/
def sampleVolumeFs : FsStats :=
  { availableBytes := some 1030, capacityBytes := some 2453, usedBytes := some 13240 }

/-- A pod with volumes `A` and `B`, each with the three filesystem stats. -/
def sampleVolPod : PodStats :=
  { podRef := { name := "pod1", ns := "test0" }, startTime := 40,
    network := some { time := 100, rxBytes := some 3007, rxErrors := some 3008,
                      txBytes := some 3009, txErrors := some 3010 },
    containers := [],
    volumeStats := [{ name := "A", fsStats := sampleVolumeFs },
                    { name := "B", fsStats := sampleVolumeFs }] }

/-- A summary whose only pod carries the two sample volumes. -/
def sampleVolSummary : Summary :=
  { node := bareNode, pods := [sampleVolPod] }

/-- A node with the three canonical system containers. -/
def sampleSysNode : NodeStats :=
  { nodeName := "test", startTime := 40,
    cpu := some { time := 100, usageNanoCores := some 0, usageCoreNanoSeconds := some 1 },
    memory := none, network := none,
    fs := some { availableBytes := some 13, capacityBytes := some 12, usedBytes := some 11 },
    systemContainers :=
      [{ name := "kubelet", startTime := 40, cpu := none, memory := none, rootfs := none, logs := none },
       { name := "runtime", startTime := 40, cpu := none, memory := none, rootfs := none, logs := none },
       { name := "misc", startTime := 40, cpu := none, memory := none, rootfs := none, logs := none }] }

/-- A summary exercising system-container name canonicalisation. -/
def sampleSysSummary : Summary :=
  { node := sampleSysNode, pods := [] }

/-- A live container `c1` of pod `pod0`. -/
def liveC1 : ContainerStats :=
  { name := "c1", startTime := 40,
    cpu := some { time := 100, usageNanoCores := some 2100, usageCoreNanoSeconds := some 2101 },
    memory := some { time := 100, availableBytes := none, usageBytes := some 2104,
                     workingSetBytes := some 2106, rssBytes := some 2105,
                     pageFaults := some 2102, majorPageFaults := some 2103 },
    rootfs := some { availableBytes := some 2113, capacityBytes := some 2112, usedBytes := some 2111 },
    logs := some { availableBytes := some 2113, capacityBytes := some 2112, usedBytes := some 2111 } }

/-- A pod container literally named `runtime` (it must not be renamed). -/
def runtimeCtr : ContainerStats :=
  { name := "runtime", startTime := 40,
    cpu := some { time := 100, usageNanoCores := some 7000, usageCoreNanoSeconds := some 7001 },
    memory := some { time := 100, availableBytes := none, usageBytes := some 7004,
                     workingSetBytes := some 7006, rssBytes := some 7005,
                     pageFaults := some 7002, majorPageFaults := some 7003 },
    rootfs := some { availableBytes := some 7013, capacityBytes := some 7012, usedBytes := some 7011 },
    logs := some { availableBytes := some 7013, capacityBytes := some 7012, usedBytes := some 7011 } }

/-- Pod `test0/pod0` of the duplicate-container scenario: a live `c0`, a
live `c1` and a terminated duplicate of `c0`. -/
def dupPod0 : PodStats :=
  { podRef := { name := "pod0", ns := "test0" }, startTime := 40,
    network := some { time := 100, rxBytes := some 1007, rxErrors := some 1008,
                      txBytes := some 1009, txErrors := some 1010 },
    containers := [liveC0, liveC1, termC0], volumeStats := [] }

/-- Pod `test0/pod1`: a different pod also carrying a container named `c0`. -/
def dupPod1 : PodStats :=
  { podRef := { name := "pod1", ns := "test0" }, startTime := 40,
    network := some { time := 100, rxBytes := some 3007, rxErrors := some 3008,
                      txBytes := some 3009, txErrors := some 3010 },
    containers := [liveC0], volumeStats := [] }

/-- Pod `test1/pod0`: the pod name collides with `dupPod0` but the
namespace differs; one of its containers is named `runtime`. -/
def dupPod2 : PodStats :=
  { podRef := { name := "pod0", ns := "test1" }, startTime := 40,
    network := some { time := 100, rxBytes := some 5007, rxErrors := some 5008,
                      txBytes := some 5009, txErrors := some 5010 },
    containers := [liveC1, runtimeCtr], volumeStats := [] }

/-- The duplicate-container scenario of the decoder test: a node with the
three system containers and three pods, the first of which carries the
terminated duplicate of `c0`. -/
def testDupSummary : Summary :=
  { node := sampleSysNode, pods := [dupPod0, dupPod1, dupPod2] }

/-- An event whose JSON serialisation fails. -/
def badEvent : Event :=
  { uid := "uid-0", lastTimestamp := 7, involvedObjectKind := "Pod",
    involvedObjectUID := "pod-uid-0", involvedObjectName := "pod0",
    sourceHost := "host0", marshalIndentResult := none }

/-!
Claim theorems: startup flags and source URIs.
-/

/-- C6: `validateFlags` returns an error (making startup fatal) if and only
if the metric resolution is below five seconds, exactly one of the TLS
certificate and TLS key files is given, or a TLS client CA file is given
without a TLS certificate; on any other flag combination it returns no
error. -/
theorem validateFlags_error_iff (f : HeapsterFlags) :
    validateFlags f ≠ Except.ok () ↔
      (f.metricResolution < fiveSeconds ∨
        ((0 < f.tlsCert.length ∧ f.tlsKey.length = 0) ∨ (f.tlsCert.length = 0 ∧ 0 < f.tlsKey.length)) ∨
        (0 < f.tlsClientCA.length ∧ f.tlsCert.length = 0)) := by
  unfold validateFlags
  split <;> rename_i h1
  · simp [h1]
  · split <;> rename_i h2
    · simp [h1, h2]
    · split <;> rename_i h3
      · simp [h1, h2, h3]
      · simp [h1, h2, h3]

/-- C7, counterexample: giving two `--source` URIs reaches the fatal
"Wrong number of sources specified" exit, refuting the claim that startup
accepts more than one source URI. -/
theorem two_sources_are_fatal :
    wrongNumberOfSources
        [{ key := "kubernetes", val := "https://a" }, { key := "influxdb", val := "http://b" }] = true ∧
    1 < ([{ key := "kubernetes", val := "https://a" }, { key := "influxdb", val := "http://b" }] : List Uri).length := by
  exact ⟨rfl, by decide⟩

/-- C7, amended: startup passes the source-count check if and only if
exactly one `--source` URI was given; zero and more than one sources are
both fatal configuration errors. -/
theorem source_count_check (sources : List Uri) :
    wrongNumberOfSources sources = false ↔ sources.length = 1 := by
  simp [wrongNumberOfSources]

/-- C9: `getKubernetesAddress` returns the URL of the first source URI whose
scheme truncated at the first `.` equals `kubernetes` (so both
`kubernetes:<host>` and `kubernetes.summary_api:<host>` match), and returns
the error "No kubernetes source found." exactly when no such URI exists. -/
theorem getKubernetesAddress_first_match (args : List Uri) :
    getKubernetesAddress args =
      (match args.find? (fun u => schemeRoot u.key == "kubernetes") with
       | some u => Except.ok u.val
       | none => Except.error "No kubernetes source found.") ∧
    schemeRoot "kubernetes" = "kubernetes" ∧
    schemeRoot "kubernetes.summary_api" = "kubernetes" := by
  refine ⟨?_, by decide, by decide⟩
  induction args with
  | nil => rfl
  | cons u rest ih =>
    by_cases h : schemeRoot u.key = "kubernetes"
    · simp [getKubernetesAddress, List.find?, h]
    · have hb : (schemeRoot u.key == "kubernetes") = false := beq_eq_false_iff_ne.mpr h
      simp [getKubernetesAddress, List.find?, h, hb, ih]

/-!
Claim theorems: the health check.
-/

/-- C1, counterexample: a batch exactly three minutes old with one metric
set is answered with HTTP 200, although its timestamp is not less than
three minutes old — the claim's "less than 3 minutes" boundary is wrong. -/
theorem healthz_boundary_answers_200 :
    healthzHTTPStatus 180000000000 (some boundaryBatch) = 200 ∧
    ¬(180000000000 - boundaryBatch.timestamp < maxMetricsDelay) := by
  exact ⟨rfl, by decide⟩

/-- C1, amended: the health check answers 200 if and only if the latest
batch exists, is at most three minutes old and contains at least one metric
set; otherwise it answers 500, and when the batch is older than three
minutes the error is "No current data batch available (latest: ...)." -/
theorem healthz_status_iff (now : Int) (latest : Option DataBatch) :
    (healthzHTTPStatus now latest = 200 ∨ healthzHTTPStatus now latest = 500) ∧
    (healthzHTTPStatus now latest = 200 ↔
      ∃ b, latest = some b ∧ now - b.timestamp ≤ maxMetricsDelay ∧
        minMetricsCount ≤ b.metricSets.length) ∧
    (∀ b, latest = some b → maxMetricsDelay < now - b.timestamp →
      healthzCheck now latest =
        Except.error ("No current data batch available (latest: " ++ toString b.timestamp ++ ").")) := by
  refine ⟨?_, ?_, ?_⟩
  · cases hc : healthzCheck now latest with
    | ok _ => exact Or.inl (by simp [healthzHTTPStatus, hc])
    | error _ => exact Or.inr (by simp [healthzHTTPStatus, hc])
  · cases latest with
    | none => simp [healthzHTTPStatus, healthzCheck]
    | some b =>
      by_cases h1 : maxMetricsDelay < now - b.timestamp
      · simp only [healthzHTTPStatus, healthzCheck, if_pos h1]
        constructor
        · intro h
          exact absurd h (by decide)
        · rintro ⟨b', hb', h2, _⟩
          cases Option.some.injEq b b' ▸ hb'
          exact absurd h1 (not_lt.mpr h2)
      · by_cases h2 : b.metricSets.length < minMetricsCount
        · simp only [healthzHTTPStatus, healthzCheck, if_neg h1, if_pos h2]
          constructor
          · intro h
            exact absurd h (by decide)
          · rintro ⟨b', hb', _, h3⟩
            cases Option.some.injEq b b' ▸ hb'
            exact absurd h2 (not_lt.mpr h3)
        · simp only [healthzHTTPStatus, healthzCheck, if_neg h1, if_neg h2]
          exact ⟨fun _ => ⟨b, rfl, not_lt.mp h1, not_lt.mp h2⟩, fun _ => trivial⟩
  · intro b hb h1
    subst hb
    simp [healthzCheck, if_pos h1]

/-- C1, witness: a fresh nonempty batch is answered 200, and a batch four
minutes stale produces the "No current data batch available" error. -/
theorem healthz_status_witness :
    healthzHTTPStatus 100 (some boundaryBatch) = 200 ∧
    healthzCheck 240000000000 (some boundaryBatch) =
      Except.error ("No current data batch available (latest: " ++ toString boundaryBatch.timestamp ++ ").") := by
  constructor
  · exact (healthz_status_iff 100 (some boundaryBatch)).2.1.mpr ⟨boundaryBatch, rfl, by decide, by decide⟩
  · exact (healthz_status_iff 240000000000 (some boundaryBatch)).2.2 boundaryBatch rfl (by decide)

/-!
Association-list lookup helpers shared by the decoder theorems.
-/

/-- Lookup skips a prefix none of whose keys match. -/
theorem lookup_append_of_none {α β : Type} [BEq α] (l1 l2 : List (α × β)) (k : α)
    (h : ∀ q ∈ l1, (k == q.1) = false) : (l1 ++ l2).lookup k = l2.lookup k := by
  induction l1 with
  | nil => rfl
  | cons hd tl ih =>
    have hhd : (k == hd.1) = false := h hd (List.mem_cons_self hd tl)
    cases hd with | mk a b =>
    simp only [List.cons_append, List.lookup, hhd]
    exact ih (fun q hq => h q (List.mem_cons_of_mem _ hq))

/-- Lookup of a key distinct from an `optMetric` entry's name skips it. -/
theorem lookup_optMetric_skip (k metricName : String) (v : Option Nat)
    (rest : List (String × Int)) (h : (k == metricName) = false) :
    (optMetric metricName v ++ rest).lookup k = rest.lookup k := by
  cases v with
  | none => rfl
  | some x => simp [optMetric, List.lookup, h]

/-- Lookup of an `optMetric` entry's own name finds exactly the optional
value, falling through to the remainder only when the value is absent. -/
theorem lookup_optMetric_found (k : String) (v : Option Nat)
    (rest : List (String × Int)) (hrest : rest.lookup k = none) :
    (optMetric k v ++ rest).lookup k = v.map Int.ofNat := by
  cases v with
  | none => simpa [optMetric] using hrest
  | some x => simp [optMetric, List.lookup]

/-- Lookup in a single `optMetric` block of a different name is `none`. -/
theorem lookup_optMetric_none (k metricName : String) (v : Option Nat)
    (h : (k == metricName) = false) :
    (optMetric metricName v).lookup k = none := by
  cases v with
  | none => rfl
  | some x => simp [optMetric, List.lookup, h]

/-!
Claim theorems: the summary decoder.
-/

/-- C3: decoding canonicalises node system-container names exactly as
kubelet, docker-daemon, system, leaves every other name unchanged, and uses
the raw (never canonicalised) name for pod containers, as the key list of
the decoded summary shows. -/
theorem decode_canonical_system_container_names (s : Summary) :
    ((decodeSummary s).map Prod.fst =
      nodeKey s.node.nodeName ::
        (s.node.systemContainers.map (fun c =>
            nodeContainerKey s.node.nodeName (systemContainerName c.name)) ++
          (s.pods.map (fun p =>
            podKey p.podRef.ns p.podRef.name ::
              (latestContainers p.containers).map (fun c =>
                podContainerKey p.podRef.ns p.podRef.name c.name))).flatten)) ∧
    systemContainerName "kubelet" = "kubelet" ∧
    systemContainerName "runtime" = "docker-daemon" ∧
    systemContainerName "misc" = "system" ∧
    (∀ n, n ≠ "kubelet" → n ≠ "runtime" → n ≠ "misc" → systemContainerName n = n) := by
  refine ⟨?_, by decide, by decide, by decide, ?_⟩
  · simp [decodeSummary, decodeNodeStats, decodePodStats, Function.comp_def]
  · intro n h1 h2 h3
    simp [systemContainerName, h1, h2, h3]

/-- Lookup distributes over append when both halves miss. -/
theorem lookup_append_none {α β : Type} [BEq α] (l1 l2 : List (α × β)) (k : α)
    (h1 : l1.lookup k = none) (h2 : l2.lookup k = none) :
    (l1 ++ l2).lookup k = none := by
  induction l1 with
  | nil => exact h2
  | cons hd tl ih =>
    cases hd with | mk a b =>
    cases hkb : (k == a) with
    | true => simp [List.lookup, hkb] at h1
    | false =>
      simp only [List.cons_append, List.lookup, hkb]
      exact ih (by simpa [List.lookup, hkb] using h1)

/-- Lookup of an `optMetric` block's own name alone. -/
theorem lookup_optMetric_self (k : String) (v : Option Nat) :
    (optMetric k v).lookup k = v.map Int.ofNat := by
  cases v with
  | none => rfl
  | some x => simp [optMetric, List.lookup]

/-- `podKey` in right-nested form: it starts with `namespace:`. -/
theorem podKey_shape (nspace podName : String) :
    ∃ y, podKey nspace podName = "namespace:" ++ y := by
  refine ⟨nspace ++ ("/pod:" ++ podName), ?_⟩
  simp only [podKey, string_append_assoc]

/-- `podContainerKey` in right-nested form: it starts with `namespace:`. -/
theorem podContainerKey_shape (nspace podName containerName : String) :
    ∃ y, podContainerKey nspace podName containerName = "namespace:" ++ y := by
  refine ⟨nspace ++ ("/pod:" ++ (podName ++ ("/container:" ++ containerName))), ?_⟩
  simp only [podContainerKey, podKey, string_append_assoc]

/-- Every key emitted by `decodeNodeStats` starts with `node:`, so a
`namespace:`-shaped key never matches one of them. -/
theorem nodeStats_key_ne (node : NodeStats) (k : String)
    (hk : ∃ y, k = "namespace:" ++ y) (q : String × MetricSet)
    (hq : q ∈ decodeNodeStats node) : (k == q.1) = false := by
  rcases hk with ⟨y, rfl⟩
  apply beq_eq_false_iff_ne.mpr
  rcases List.mem_cons.mp hq with heq | hmap
  · rw [heq]
    exact fun h => node_ne_namespace node.nodeName y h.symm
  · rcases List.mem_map.mp hmap with ⟨c, _, rfl⟩
    intro h
    have h2 : nodeContainerKey node.nodeName (systemContainerName c.name) =
        "node:" ++ (node.nodeName ++ ("/container:" ++ systemContainerName c.name)) := by
      simp only [nodeContainerKey, nodeKey, string_append_assoc]
    rw [h2] at h
    exact node_ne_namespace _ _ h.symm

/-- A pod key never equals a pod-container key built over it. -/
theorem podKey_ne_podContainerKey (nspace podName containerName : String) :
    podKey nspace podName ≠ podContainerKey nspace podName containerName := by
  have h : podContainerKey nspace podName containerName =
      podKey nspace podName ++ ("/container:" ++ containerName) := by
    simp only [podContainerKey, string_append_assoc]
  rw [h]
  apply ne_append_of_data_ne_nil
  rw [string_data_append]
  simp

/-- Deduplication of a two-element duplicate-name container list keeps the
entry with the greatest start time (the first on a tie). -/
theorem latestContainers_pair (a b : ContainerStats) (hn : a.name = b.name) :
    latestContainers [a, b] = [if a.startTime < b.startTime then b else a] := by
  have hb : (a.name == b.name) = true := beq_iff_eq.mpr hn
  simp only [latestContainers, List.foldl]
  simp only [insertLatest, List.find?, List.nil_append]
  simp only [hb, List.map]
  by_cases hlt : a.startTime < b.startTime
  · simp [hlt]
  · simp [hlt]

/-- `insertLatest` never changes the multiset of names: on a duplicate it
replaces in place, otherwise it appends the new name. -/
theorem insertLatest_names (acc : List ContainerStats) (c : ContainerStats) :
    (insertLatest acc c).map ContainerStats.name =
      match acc.find? (fun d => d.name == c.name) with
      | some _ => acc.map ContainerStats.name
      | none => acc.map ContainerStats.name ++ [c.name] := by
  unfold insertLatest
  cases hf : acc.find? (fun d => d.name == c.name) with
  | none => simp
  | some d =>
    by_cases hlt : d.startTime < c.startTime
    · simp only [if_pos hlt, List.map_map]
      apply List.map_congr_left
      intro e _
      by_cases he : e.name = c.name
      · simp [Function.comp, he]
      · simp [Function.comp, beq_eq_false_iff_ne.mpr he]
    · simp [hlt]

/-- `insertLatest` preserves distinctness of the names. -/
theorem insertLatest_names_nodup (acc : List ContainerStats) (c : ContainerStats)
    (h : (acc.map ContainerStats.name).Nodup) :
    ((insertLatest acc c).map ContainerStats.name).Nodup := by
  rw [insertLatest_names]
  cases hf : acc.find? (fun d => d.name == c.name) with
  | some d => exact h
  | none =>
    have hnot : c.name ∉ acc.map ContainerStats.name := by
      intro hmem
      rcases List.mem_map.mp hmem with ⟨d, hd, hdn⟩
      exact List.find?_eq_none.mp hf d hd (by simp [hdn])
    simp [List.nodup_append, h, hnot]

/-- The names of the deduplicated container list are pairwise distinct. -/
theorem latestContainers_names_nodup (cs : List ContainerStats) :
    ((latestContainers cs).map ContainerStats.name).Nodup := by
  suffices h : ∀ acc, (acc.map ContainerStats.name).Nodup →
      ((cs.foldl insertLatest acc).map ContainerStats.name).Nodup by
    exact h [] (by simp)
  induction cs with
  | nil => intro acc h; simpa using h
  | cons c rest ih => intro acc h; exact ih _ (insertLatest_names_nodup acc c h)

/-- The replacement function of `insertLatest` leaves other names alone. -/
theorem replaceFn_eq_self (c e : ContainerStats) (h : (e.name == c.name) = false) :
    (if e.name == c.name then c else e) = e := by
  rw [h]
  simp

/-- The replacement function of `insertLatest` swaps in the new entry. -/
theorem replaceFn_eq_new (c e : ContainerStats) (h : (e.name == c.name) = true) :
    (if e.name == c.name then c else e) = c := by
  rw [h]
  simp

/-- `map_cons` for the replacement function, with the head application
already reduced. -/
theorem map_replace_cons (c e : ContainerStats) (tl : List ContainerStats) :
    (e :: tl).map (fun d => if d.name == c.name then c else d) =
      (if e.name == c.name then c else e) ::
        tl.map (fun d => if d.name == c.name then c else d) := rfl

/-- Replacing the same-named entries by `c` puts `c` at the found spot. -/
theorem find?_map_replace_self (c : ContainerStats) (l : List ContainerStats)
    (d : ContainerStats) (h : l.find? (fun e => e.name == c.name) = some d) :
    (l.map (fun e => if e.name == c.name then c else e)).find?
      (fun e => e.name == c.name) = some c := by
  induction l with
  | nil => simp at h
  | cons e tl ih =>
    cases he : (e.name == c.name) with
    | true =>
      rw [map_replace_cons, replaceFn_eq_new c e he, List.find?_cons]
      simp only [beq_self_eq_true]
    | false =>
      simp only [List.find?_cons, he] at h
      rw [map_replace_cons, replaceFn_eq_self c e he, List.find?_cons]
      simp only [he]
      exact ih h

/-- Replacing entries of another name leaves a `find?` for `nm` unchanged. -/
theorem find?_map_replace_other (c : ContainerStats) (nm : String) (hc : c.name ≠ nm)
    (l : List ContainerStats) :
    (l.map (fun e => if e.name == c.name then c else e)).find? (fun e => e.name == nm) =
      l.find? (fun e => e.name == nm) := by
  induction l with
  | nil => rfl
  | cons e tl ih =>
    by_cases hec : e.name = c.name
    · have h1 : (e.name == c.name) = true := by simp [hec]
      have h2 : (c.name == nm) = false := beq_eq_false_iff_ne.mpr hc
      have h3 : (e.name == nm) = false := beq_eq_false_iff_ne.mpr (hec ▸ hc)
      rw [map_replace_cons, replaceFn_eq_new c e h1]
      simp only [List.find?_cons, h2, h3]
      exact ih
    · have h1 : (e.name == c.name) = false := beq_eq_false_iff_ne.mpr hec
      rw [map_replace_cons, replaceFn_eq_self c e h1]
      simp only [List.find?_cons]
      cases he : (e.name == nm) with
      | true => simp only [he]
      | false =>
        simp only [he]
        exact ih

/-- One step of `insertLatest`, seen through a `find?` for the name `nm`,
is exactly `bestStep`. -/
theorem insertLatest_find (nm : String) (acc : List ContainerStats) (c : ContainerStats) :
    (insertLatest acc c).find? (fun d => d.name == nm) =
      bestStep nm (acc.find? (fun d => d.name == nm)) c := by
  by_cases hc : c.name = nm
  · subst hc
    cases hf : acc.find? (fun d => d.name == c.name) with
    | none =>
      have happ : (acc ++ [c]).find? (fun d => d.name == c.name) = some c := by
        rw [List.find?_append, hf]
        simp [List.find?]
      simp [insertLatest, bestStep, hf, happ]
    | some d =>
      by_cases hlt : d.startTime < c.startTime
      · have hrw := find?_map_replace_self c acc d hf
        simp [-List.find?_map, -beq_iff_eq, insertLatest, bestStep, hf, hlt, hrw]
      · simp [insertLatest, bestStep, hf, hlt]
  · cases hf : acc.find? (fun d => d.name == c.name) with
    | none =>
      simp [insertLatest, bestStep, hf, List.find?_append, List.find?, hc,
        beq_eq_false_iff_ne.mpr hc]
    | some d =>
      by_cases hlt : d.startTime < c.startTime
      · have hrw := find?_map_replace_other c nm hc acc
        simp [-List.find?_map, -beq_iff_eq, insertLatest, bestStep, hf, hlt, hc, hrw]
      · simp [insertLatest, bestStep, hf, hlt, hc]

/-- The entry `latestContainers` keeps for the name `nm` is the fold of
`bestStep` over the raw entries. -/
theorem latestContainers_find (nm : String) (cs : List ContainerStats) :
    (latestContainers cs).find? (fun d => d.name == nm) = cs.foldl (bestStep nm) none := by
  suffices h : ∀ acc, (cs.foldl insertLatest acc).find? (fun d => d.name == nm) =
      cs.foldl (bestStep nm) (acc.find? (fun d => d.name == nm)) by
    simpa using h []
  induction cs with
  | nil => intro acc; rfl
  | cons c rest ih =>
    intro acc
    rw [List.foldl_cons, List.foldl_cons, ih, insertLatest_find]
/-- A fold of `bestStep` yields `none` only from `none` with no matching
name among the entries. -/
theorem bestStep_foldl_none (nm : String) (cs : List ContainerStats) :
    ∀ o, cs.foldl (bestStep nm) o = none → o = none ∧ ∀ c ∈ cs, c.name ≠ nm := by
  induction cs with
  | nil =>
    intro o h
    exact ⟨h, by simp⟩
  | cons c rest ih =>
    intro o h
    rw [List.foldl_cons] at h
    obtain ⟨h1, h2⟩ := ih _ h
    have hc : c.name ≠ nm := by
      intro he
      simp only [bestStep, if_pos he] at h1
      cases o with
      | none => simp at h1
      | some d => by_cases hlt : d.startTime < c.startTime <;> simp [hlt] at h1
    have ho : o = none := by
      simp only [bestStep, if_neg hc] at h1
      exact h1
    refine ⟨ho, ?_⟩
    intro d hd
    rcases List.mem_cons.mp hd with rfl | hd'
    · exact hc
    · exact h2 d hd'

/-- What a fold of `bestStep` returns: an entry of the given name, drawn
from the start value or the list, whose start time dominates every
same-named entry of the list and the start value. -/
theorem bestStep_foldl_some (nm : String) (cs : List ContainerStats) :
    ∀ o, (∀ v, o = some v → v.name = nm) →
      ∀ w, cs.foldl (bestStep nm) o = some w →
        w.name = nm ∧ (o = some w ∨ w ∈ cs) ∧
        (∀ d ∈ cs, d.name = nm → d.startTime ≤ w.startTime) ∧
        (∀ v, o = some v → v.startTime ≤ w.startTime) := by
  induction cs with
  | nil =>
    intro o ho w hw
    refine ⟨ho w hw, Or.inl hw, by simp, ?_⟩
    intro v hv
    rw [hv] at hw
    obtain rfl : v = w := by injection hw
    exact le_refl _
  | cons c rest ih =>
    intro o ho w hw
    rw [List.foldl_cons] at hw
    have ho' : ∀ v, bestStep nm o c = some v → v.name = nm := by
      intro v hv
      by_cases hc : c.name = nm
      · cases o with
        | none =>
          simp [bestStep, hc] at hv
          subst hv
          exact hc
        | some d =>
          by_cases hlt : d.startTime < c.startTime
          · simp [bestStep, hc, hlt] at hv
            subst hv
            exact hc
          · simp [bestStep, hc, hlt] at hv
            subst hv
            exact ho d rfl
      · simp only [bestStep, if_neg hc] at hv
        exact ho v hv
    obtain ⟨hwn, hwm, hwmax, hwo⟩ := ih (bestStep nm o c) ho' w hw
    refine ⟨hwn, ?_, ?_, ?_⟩
    · rcases hwm with h' | h'
      · by_cases hc : c.name = nm
        · cases o with
          | none =>
            simp [bestStep, hc] at h'
            subst h'
            exact Or.inr (List.mem_cons_self _ _)
          | some d =>
            by_cases hlt : d.startTime < c.startTime
            · simp [bestStep, hc, hlt] at h'
              subst h'
              exact Or.inr (List.mem_cons_self _ _)
            · simp [bestStep, hc, hlt] at h'
              subst h'
              exact Or.inl rfl
        · simp only [bestStep, if_neg hc] at h'
          exact Or.inl h'
      · exact Or.inr (List.mem_cons_of_mem _ h')
    · intro d hd hdn
      rcases List.mem_cons.mp hd with rfl | hd'
      · cases ho2 : o with
        | none =>
          have hb : bestStep nm none d = some d := by
            simp [bestStep, hdn]
          rw [ho2] at hwo
          exact hwo d hb
        | some d2 =>
          by_cases hlt : d2.startTime < d.startTime
          · have hb : bestStep nm (some d2) d = some d := by
              simp [bestStep, hdn, hlt]
            rw [ho2] at hwo
            exact hwo d hb
          · have hb : bestStep nm (some d2) d = some d2 := by
              simp [bestStep, hdn, hlt]
            rw [ho2] at hwo
            exact le_trans (not_lt.mp hlt) (hwo d2 hb)
      · exact hwmax d hd' hdn
    · intro v hv
      subst hv
      by_cases hc : c.name = nm
      · by_cases hlt : v.startTime < c.startTime
        · have hb : bestStep nm (some v) c = some c := by
            simp [bestStep, hc, hlt]
          exact le_trans (le_of_lt hlt) (hwo c hb)
        · have hb : bestStep nm (some v) c = some v := by
            simp [bestStep, hc, hlt]
          exact hwo v hb
      · have hb : bestStep nm (some v) c = some v := by
          simp [bestStep, hc]
        exact hwo v hb

/-- When some entry carries the name, `latestContainers` keeps exactly one
entry with it: a raw entry of that name whose start time dominates every
same-named raw entry. -/
theorem latestContainers_find_spec (cs : List ContainerStats) (nm : String)
    (hex : ∃ c ∈ cs, c.name = nm) :
    ∃ w, (latestContainers cs).find? (fun d => d.name == nm) = some w ∧
      w ∈ cs ∧ w.name = nm ∧ ∀ d ∈ cs, d.name = nm → d.startTime ≤ w.startTime := by
  cases hf : (latestContainers cs).find? (fun d => d.name == nm) with
  | none =>
    rw [latestContainers_find] at hf
    obtain ⟨-, hall⟩ := bestStep_foldl_none nm cs none hf
    obtain ⟨c, hc, hcn⟩ := hex
    exact absurd hcn (hall c hc)
  | some w =>
    have hf2 := hf
    rw [latestContainers_find] at hf2
    obtain ⟨hwn, hwm, hwmax, -⟩ :=
      bestStep_foldl_some nm cs none (by intro v hv; simp at hv) w hf2
    rcases hwm with h' | h'
    · simp at h'
    · exact ⟨w, rfl, h', hwn, hwmax⟩

/-- Under distinct names, at most one entry matches a given name. -/
theorem countP_name_le_one_of_nodup (l : List ContainerStats) (nm : String)
    (h : (l.map ContainerStats.name).Nodup) :
    l.countP (fun d => d.name == nm) ≤ 1 := by
  induction l with
  | nil => simp
  | cons e tl ih =>
    simp only [List.map_cons, List.nodup_cons] at h
    obtain ⟨hne, htl⟩ := h
    by_cases he : e.name = nm
    · have hpa : (fun d : ContainerStats => d.name == nm) e = true := by simp [he]
      rw [List.countP_cons_of_pos (fun d : ContainerStats => d.name == nm) _ hpa]
      have h0 : tl.countP (fun d => d.name == nm) = 0 := by
        apply List.countP_eq_zero.mpr
        intro d hd hdn
        subst he
        simp only [beq_iff_eq] at hdn
        exact hne (List.mem_map.mpr ⟨d, hd, hdn⟩)
      rw [h0]
    · have hpa : ¬ ((fun d : ContainerStats => d.name == nm) e = true) := by simp [he]
      rw [List.countP_cons_of_neg (fun d : ContainerStats => d.name == nm) _ hpa]
      exact ih htl

/-- `latestContainers` keeps exactly one entry per present name. -/
theorem latestContainers_countP_name (cs : List ContainerStats) (nm : String)
    (hex : ∃ c ∈ cs, c.name = nm) :
    (latestContainers cs).countP (fun d => d.name == nm) = 1 := by
  have hle := countP_name_le_one_of_nodup (latestContainers cs) nm
    (latestContainers_names_nodup cs)
  obtain ⟨w, hwf, -, hwn, -⟩ := latestContainers_find_spec cs nm hex
  have hmem2 := List.mem_of_find?_eq_some hwf
  have hp : (w.name == nm) = true := by simpa using List.find?_some hwf
  have hpos : 0 < (latestContainers cs).countP (fun d => d.name == nm) :=
    List.countP_pos_iff.mpr ⟨w, hmem2, hp⟩
  omega

/-- String concatenation is left-cancellative. -/
theorem string_append_left_cancel (s x y : String) (h : s ++ x = s ++ y) : x = y := by
  have hd := congrArg String.data h
  rw [string_data_append, string_data_append] at hd
  have h2 := List.append_cancel_left hd
  cases x with | mk dx =>
  cases y with | mk dy =>
  exact congrArg String.mk h2

/-- Within one pod, the container key determines the container name. -/
theorem podContainerKey_name_inj (nspace podName x y : String)
    (h : podContainerKey nspace podName x = podContainerKey nspace podName y) : x = y := by
  unfold podContainerKey at h
  exact string_append_left_cancel _ _ _ h

/-- Lookup misses a list none of whose keys match. -/
theorem lookup_eq_none_of_all {α β : Type} [BEq α] (l : List (α × β)) (k : α)
    (h : ∀ e ∈ l, (k == e.1) = false) : l.lookup k = none := by
  induction l with
  | nil => rfl
  | cons hd tl ih =>
    cases hd with | mk a b =>
    have hhd := h (a, b) (List.mem_cons_self _ _)
    simp only [List.lookup, hhd]
    exact ih fun e he => h e (List.mem_cons_of_mem _ he)

/-- Lookup ignores a suffix that misses entirely. -/
theorem lookup_append_right_none {α β : Type} [BEq α] (l1 l2 : List (α × β)) (k : α)
    (h : l2.lookup k = none) : (l1 ++ l2).lookup k = l1.lookup k := by
  induction l1 with
  | nil => simpa using h
  | cons hd tl ih =>
    cases hd with | mk a b =>
    cases hk : (k == a) with
    | true => simp [List.lookup, hk]
    | false =>
      simp only [List.cons_append, List.lookup, hk]
      exact ih
/-- Lookup of a pod-container key among a pod's emitted container entries is
the decode of the entry `find?` selects for that container name. -/
theorem lookup_map_containers (nspace podName nodeName nm : String)
    (l : List ContainerStats) :
    (l.map (fun c => (podContainerKey nspace podName c.name,
        containerMetricSet MetricSetTypePodContainer nodeName c.name c))).lookup
      (podContainerKey nspace podName nm) =
    (l.find? (fun c => c.name == nm)).map
      (fun w => containerMetricSet MetricSetTypePodContainer nodeName w.name w) := by
  induction l with
  | nil => rfl
  | cons c tl ih =>
    by_cases h : c.name = nm
    · have hk : (podContainerKey nspace podName nm ==
          podContainerKey nspace podName c.name) = true := by simp [h]
      have hn2 : (c.name == nm) = true := by simp [h]
      simp only [List.map_cons, List.find?_cons, hn2, List.lookup, hk]
      rfl
    · have hk : (podContainerKey nspace podName nm ==
          podContainerKey nspace podName c.name) = false := by
        apply beq_eq_false_iff_ne.mpr
        intro he
        exact h (podContainerKey_name_inj _ _ _ _ he).symm
      have hn2 : (c.name == nm) = false := beq_eq_false_iff_ne.mpr h
      simp only [List.map_cons, List.find?_cons, hn2, List.lookup, hk]
      exact ih

/-- Counting a pod-container key among a pod's emitted container entries
counts the containers of that name. -/
theorem countP_map_containers (nspace podName nodeName nm : String)
    (l : List ContainerStats) :
    (l.map (fun c => (podContainerKey nspace podName c.name,
        containerMetricSet MetricSetTypePodContainer nodeName c.name c))).countP
      (fun kv => kv.1 == podContainerKey nspace podName nm) =
    l.countP (fun c => c.name == nm) := by
  induction l with
  | nil => rfl
  | cons c tl ih =>
    rw [List.map_cons]
    by_cases h : c.name = nm
    · have hk : (fun kv : String × MetricSet =>
          kv.1 == podContainerKey nspace podName nm)
            (podContainerKey nspace podName c.name,
              containerMetricSet MetricSetTypePodContainer nodeName c.name c) = true := by
        simp [h]
      have hn2 : (fun c : ContainerStats => c.name == nm) c = true := by simp [h]
      rw [List.countP_cons_of_pos
          (fun kv : String × MetricSet => kv.1 == podContainerKey nspace podName nm) _ hk,
        List.countP_cons_of_pos (fun c : ContainerStats => c.name == nm) _ hn2, ih]
    · have hk : ¬ ((fun kv : String × MetricSet =>
          kv.1 == podContainerKey nspace podName nm)
            (podContainerKey nspace podName c.name,
              containerMetricSet MetricSetTypePodContainer nodeName c.name c) = true) := by
        intro he
        simp only [beq_iff_eq] at he
        exact h (podContainerKey_name_inj _ _ _ _ he)
      have hn2 : ¬ ((fun c : ContainerStats => c.name == nm) c = true) := by simp [h]
      rw [List.countP_cons_of_neg
          (fun kv : String × MetricSet => kv.1 == podContainerKey nspace podName nm) _ hk,
        List.countP_cons_of_neg (fun c : ContainerStats => c.name == nm) _ hn2, ih]

/-- Counting over the flattened per-pod outputs, when the element `p`
occurs once and every other element contributes no match, reduces to `p`'s
own output. -/
theorem countP_flatten_map_unique {α β : Type} [DecidableEq α]
    (f : α → List β) (pr : β → Bool) (pods : List α) (p : α)
    (hmem : p ∈ pods) (honce : pods.count p = 1)
    (hzero : ∀ q ∈ pods, q ≠ p → (f q).countP pr = 0) :
    ((pods.map f).flatten).countP pr = (f p).countP pr := by
  induction pods with
  | nil => cases hmem
  | cons q rest ih =>
    rw [List.map_cons, List.flatten_cons, List.countP_append]
    by_cases hqp : q = p
    · subst hqp
      have hcount : rest.count q = 0 := by
        have h1 := List.count_cons_self q rest
        omega
      have hnot : q ∉ rest := List.count_eq_zero.mp hcount
      have hzrest : ((rest.map f).flatten).countP pr = 0 := by
        apply List.countP_eq_zero.mpr
        intro x hx
        rcases List.mem_flatten.mp hx with ⟨l, hl, hxl⟩
        rcases List.mem_map.mp hl with ⟨r, hr, rfl⟩
        have hz := hzero r (List.mem_cons_of_mem _ hr) (fun he => hnot (he ▸ hr))
        exact List.countP_eq_zero.mp hz x hxl
      rw [hzrest]
      omega
    · have h0 : (f q).countP pr = 0 := hzero q (List.mem_cons_self _ _) hqp
      have hmem2 : p ∈ rest := by
        rcases List.mem_cons.mp hmem with he | hm
        · exact absurd he.symm hqp
        · exact hm
      have honce2 : rest.count p = 1 := by
        have h1 := List.count_cons_of_ne (fun h => hqp h.symm) rest
        omega
      rw [h0, ih hmem2 honce2 (fun r hr hne => hzero r (List.mem_cons_of_mem _ hr) hne)]
      omega

/-- Lookup over the flattened per-pod outputs, under the same uniqueness
side conditions, reduces to `p`'s own output. -/
theorem lookup_flatten_map_unique {α β : Type} [DecidableEq α]
    (f : α → List (String × β)) (K : String) (pods : List α) (p : α)
    (hmem : p ∈ pods) (honce : pods.count p = 1)
    (hzero : ∀ q ∈ pods, q ≠ p → ∀ e ∈ f q, (K == e.1) = false) :
    ((pods.map f).flatten).lookup K = (f p).lookup K := by
  induction pods with
  | nil => cases hmem
  | cons q rest ih =>
    rw [List.map_cons, List.flatten_cons]
    by_cases hqp : q = p
    · subst hqp
      have hcount : rest.count q = 0 := by
        have h1 := List.count_cons_self q rest
        omega
      have hnot : q ∉ rest := List.count_eq_zero.mp hcount
      have hzrest : ((rest.map f).flatten).lookup K = none := by
        apply lookup_eq_none_of_all
        intro e he
        rcases List.mem_flatten.mp he with ⟨l, hl, hel⟩
        rcases List.mem_map.mp hl with ⟨r, hr, rfl⟩
        exact hzero r (List.mem_cons_of_mem _ hr) (fun heq => hnot (heq ▸ hr)) e hel
      rw [lookup_append_right_none _ _ _ hzrest]
    · have hmem2 : p ∈ rest := by
        rcases List.mem_cons.mp hmem with he | hm
        · exact absurd he.symm hqp
        · exact hm
      have honce2 : rest.count p = 1 := by
        have h1 := List.count_cons_of_ne (fun h => hqp h.symm) rest
        omega
      rw [lookup_append_of_none _ _ _ (hzero q (List.mem_cons_self _ _) hqp)]
      exact ih hmem2 honce2 (fun r hr hne => hzero r (List.mem_cons_of_mem _ hr) hne)

/-- C2: whenever a pod of a decoded summary reports two container entries
with the same name (and the pod's identity and emitted keys are not shared
by another pod of the summary), the decoded summary contains exactly one
metric set under that container's key, decoded from a same-named entry
whose `startTime` dominates every duplicate — never from the
earlier-started (terminated) one of the two. -/
theorem decode_latest_duplicate_container (s : Summary) (p : PodStats)
    (a b : ContainerStats) (hmem : p ∈ s.pods) (honce : s.pods.count p = 1)
    (ha : a ∈ p.containers) (hb : b ∈ p.containers) (hn : a.name = b.name)
    (hab : a.startTime ≠ b.startTime)
    (hothers : ∀ q ∈ s.pods, q ≠ p →
      podKey q.podRef.ns q.podRef.name ≠
        podContainerKey p.podRef.ns p.podRef.name a.name ∧
      ∀ c ∈ latestContainers q.containers,
        podContainerKey q.podRef.ns q.podRef.name c.name ≠
          podContainerKey p.podRef.ns p.podRef.name a.name) :
    (decodeSummary s).countP
        (fun kv => kv.1 == podContainerKey p.podRef.ns p.podRef.name a.name) = 1 ∧
    ∃ w, w ∈ p.containers ∧ w.name = a.name ∧
      (∀ d ∈ p.containers, d.name = a.name → d.startTime ≤ w.startTime) ∧
      w ≠ (if a.startTime < b.startTime then a else b) ∧
      (decodeSummary s).lookup (podContainerKey p.podRef.ns p.podRef.name a.name) =
        some (containerMetricSet MetricSetTypePodContainer s.node.nodeName w.name w) := by
  obtain ⟨w, hwf, hwmem, hwname, hwmax⟩ :=
    latestContainers_find_spec p.containers a.name ⟨a, ha, rfl⟩
  have hnodemiss : ∀ q ∈ decodeNodeStats s.node,
      (podContainerKey p.podRef.ns p.podRef.name a.name == q.1) = false :=
    fun q hq => nodeStats_key_ne s.node _ (podContainerKey_shape _ _ _) q hq
  have hzero : ∀ q ∈ s.pods, q ≠ p → ∀ e ∈ decodePodStats s.node.nodeName q,
      (podContainerKey p.podRef.ns p.podRef.name a.name == e.1) = false := by
    intro q hq hne e he
    apply beq_eq_false_iff_ne.mpr
    rcases List.mem_cons.mp he with rfl | he'
    · exact fun heq => (hothers q hq hne).1 heq.symm
    · rcases List.mem_map.mp he' with ⟨c, hc, rfl⟩
      exact fun heq => (hothers q hq hne).2 c hc heq.symm
  constructor
  · unfold decodeSummary
    rw [List.countP_append]
    have hnode0 : (decodeNodeStats s.node).countP
        (fun kv => kv.1 == podContainerKey p.podRef.ns p.podRef.name a.name) = 0 := by
      apply List.countP_eq_zero.mpr
      intro q hq hqt
      have h2 := hnodemiss q hq
      simp only [beq_iff_eq] at hqt
      exact (beq_eq_false_iff_ne.mp h2) hqt.symm
    have hzc : ∀ q ∈ s.pods, q ≠ p → (decodePodStats s.node.nodeName q).countP
        (fun kv => kv.1 == podContainerKey p.podRef.ns p.podRef.name a.name) = 0 := by
      intro q hq hne
      apply List.countP_eq_zero.mpr
      intro e he het
      have h2 := hzero q hq hne e he
      simp only [beq_iff_eq] at het
      exact (beq_eq_false_iff_ne.mp h2) het.symm
    rw [hnode0, countP_flatten_map_unique _ _ s.pods p hmem honce hzc]
    unfold decodePodStats
    have hpodne : ¬ ((fun kv : String × MetricSet =>
        kv.1 == podContainerKey p.podRef.ns p.podRef.name a.name)
          (podKey p.podRef.ns p.podRef.name, podMetricSet p) = true) := by
      simp only [beq_iff_eq]
      exact podKey_ne_podContainerKey p.podRef.ns p.podRef.name a.name
    rw [List.countP_cons_of_neg
        (fun kv : String × MetricSet =>
          kv.1 == podContainerKey p.podRef.ns p.podRef.name a.name) _ hpodne]
    rw [countP_map_containers]
    have hone := latestContainers_countP_name p.containers a.name ⟨a, ha, rfl⟩
    omega
  · refine ⟨w, hwmem, hwname, hwmax, ?_, ?_⟩
    · have hlose : (if a.startTime < b.startTime then a else b).startTime < w.startTime := by
        by_cases hlt : a.startTime < b.startTime
        · rw [if_pos hlt]
          exact lt_of_lt_of_le hlt (hwmax b hb hn.symm)
        · rw [if_neg hlt]
          have hba : b.startTime < a.startTime :=
            lt_of_le_of_ne (not_lt.mp hlt) (fun he => hab he.symm)
          exact lt_of_lt_of_le hba (hwmax a ha rfl)
      intro he
      rw [← he] at hlose
      exact lt_irrefl _ hlose
    · unfold decodeSummary
      rw [lookup_append_of_none _ _ _ hnodemiss,
        lookup_flatten_map_unique _ _ s.pods p hmem honce hzero]
      unfold decodePodStats
      have hpodne2 : (podContainerKey p.podRef.ns p.podRef.name a.name ==
          podKey p.podRef.ns p.podRef.name) = false :=
        beq_eq_false_iff_ne.mpr (Ne.symm (podKey_ne_podContainerKey _ _ _))
      simp only [List.lookup, hpodne2]
      rw [lookup_map_containers, hwf]
      rfl

/-- C2, witness: in the decoder test's summary — three pods and the node's
system containers, pod `test0/pod0` reporting a live `c0` (start 40), a
live `c1` and a terminated duplicate of `c0` (start -20) — exactly one
metric set is emitted under the key of `c0`, decoded from a dominant
same-named entry that is not the terminated one. -/
theorem decode_latest_duplicate_witness :
    (dupPod0 ∈ testDupSummary.pods ∧ testDupSummary.pods.count dupPod0 = 1 ∧
      liveC0 ∈ dupPod0.containers ∧ termC0 ∈ dupPod0.containers ∧
      liveC0.name = termC0.name ∧ liveC0.startTime ≠ termC0.startTime) ∧
    ((decodeSummary testDupSummary).countP
        (fun kv => kv.1 == podContainerKey "test0" "pod0" "c0") = 1 ∧
      ∃ w, w ∈ dupPod0.containers ∧ w.name = "c0" ∧
        (∀ d ∈ dupPod0.containers, d.name = "c0" → d.startTime ≤ w.startTime) ∧
        w ≠ (if liveC0.startTime < termC0.startTime then liveC0 else termC0) ∧
        (decodeSummary testDupSummary).lookup (podContainerKey "test0" "pod0" "c0") =
          some (containerMetricSet MetricSetTypePodContainer "test" w.name w)) := by
  refine ⟨⟨by decide, by decide, by decide, by decide, rfl, by decide⟩, ?_⟩
  exact decode_latest_duplicate_container testDupSummary dupPod0 liveC0 termC0
    (by decide) (by decide) (by decide) (by decide) rfl (by decide) (by decide)

/-- C3, witness: the summary carrying the three canonical system containers
decodes to canonicalised keys, and an arbitrary other name passes through. -/
theorem decode_canonical_names_witness :
    ((decodeSummary sampleSysSummary).map Prod.fst =
      ["node:test", "node:test/container:kubelet", "node:test/container:docker-daemon",
        "node:test/container:system"]) ∧
    ("database" ≠ "kubelet" ∧ "database" ≠ "runtime" ∧ "database" ≠ "misc") ∧
    systemContainerName "database" = "database" := by
  refine ⟨?_, by decide, ?_⟩
  · rw [(decode_canonical_system_container_names sampleSysSummary).1]
    decide
  · exact (decode_canonical_system_container_names sampleSysSummary).2.2.2.2 "database"
      (by decide) (by decide) (by decide)

/-- C8: every metric set of a decoded summary carries a `type` label that
agrees with its key's grammar: `node:<n>` keys are typed `node`,
`node:<n>/container:<c>` keys `sys_container`, `namespace:<ns>/pod:<p>` keys
`pod`, and `namespace:<ns>/pod:<p>/container:<c>` keys `pod_container`. -/
theorem decode_type_label_matches_key (s : Summary) (kv : String × MetricSet)
    (hkv : kv ∈ decodeSummary s) :
    (∃ n, kv.1 = nodeKey n ∧ kv.2.labels.lookup "type" = some MetricSetTypeNode) ∨
    (∃ n c, kv.1 = nodeContainerKey n c ∧
      kv.2.labels.lookup "type" = some MetricSetTypeSystemContainer) ∨
    (∃ nspace podName, kv.1 = podKey nspace podName ∧
      kv.2.labels.lookup "type" = some MetricSetTypePod) ∨
    (∃ nspace podName c, kv.1 = podContainerKey nspace podName c ∧
      kv.2.labels.lookup "type" = some MetricSetTypePodContainer) := by
  rcases List.mem_append.mp hkv with hnode | hpods
  · rcases List.mem_cons.mp hnode with heq | hsys
    · subst heq
      exact Or.inl ⟨s.node.nodeName, rfl, rfl⟩
    · rcases List.mem_map.mp hsys with ⟨c, _, rfl⟩
      exact Or.inr (Or.inl ⟨s.node.nodeName, systemContainerName c.name, rfl, rfl⟩)
  · rcases List.mem_flatten.mp hpods with ⟨l, hl, hkvl⟩
    rcases List.mem_map.mp hl with ⟨p, _, rfl⟩
    rcases List.mem_cons.mp hkvl with heq | hctr
    · subst heq
      exact Or.inr (Or.inr (Or.inl ⟨p.podRef.ns, p.podRef.name, rfl, rfl⟩))
    · rcases List.mem_map.mp hctr with ⟨c, _, rfl⟩
      exact Or.inr (Or.inr (Or.inr ⟨p.podRef.ns, p.podRef.name, c.name, rfl, rfl⟩))

/-- C8, witness: the node metric set of the system-container sample is in
the decoded batch, and its key and `type` label agree per the grammar. -/
theorem decode_type_label_witness :
    ((nodeKey "test", nodeMetricSet sampleSysNode) ∈ decodeSummary sampleSysSummary) ∧
    ((∃ n, (nodeKey "test", nodeMetricSet sampleSysNode).1 = nodeKey n ∧
        (nodeKey "test", nodeMetricSet sampleSysNode).2.labels.lookup "type" =
          some MetricSetTypeNode) ∨
      (∃ n c, (nodeKey "test", nodeMetricSet sampleSysNode).1 = nodeContainerKey n c ∧
        (nodeKey "test", nodeMetricSet sampleSysNode).2.labels.lookup "type" =
          some MetricSetTypeSystemContainer) ∨
      (∃ nspace podName, (nodeKey "test", nodeMetricSet sampleSysNode).1 = podKey nspace podName ∧
        (nodeKey "test", nodeMetricSet sampleSysNode).2.labels.lookup "type" =
          some MetricSetTypePod) ∨
      (∃ nspace podName c,
        (nodeKey "test", nodeMetricSet sampleSysNode).1 = podContainerKey nspace podName c ∧
        (nodeKey "test", nodeMetricSet sampleSysNode).2.labels.lookup "type" =
          some MetricSetTypePodContainer)) := by
  have hmem : (nodeKey "test", nodeMetricSet sampleSysNode) ∈ decodeSummary sampleSysSummary :=
    List.mem_append_left _ (List.mem_cons_self _ _)
  exact ⟨hmem, decode_type_label_matches_key sampleSysSummary _ hmem⟩

/-- Flattening lists of one uniform length multiplies the count. -/
theorem flatten_length_uniform {α : Type} (L : List (List α)) (k : Nat)
    (h : ∀ l ∈ L, l.length = k) : L.flatten.length = k * L.length := by
  induction L with
  | nil => simp
  | cons hd tl ih =>
    simp only [List.flatten_cons, List.length_append, List.length_cons]
    rw [h hd (List.mem_cons_self _ _), ih (fun l hl => h l (List.mem_cons_of_mem _ hl))]
    ring

/-- A volume whose three filesystem statistics are all present yields
exactly three labeled metrics. -/
theorem fsLabeledMetrics_full_length (resourceID : String) (fs : FsStats)
    (h1 : fs.availableBytes.isSome) (h2 : fs.capacityBytes.isSome)
    (h3 : fs.usedBytes.isSome) :
    (fsLabeledMetrics resourceID (some fs)).length = 3 := by
  rcases Option.isSome_iff_exists.mp h1 with ⟨x1, hx1⟩
  rcases Option.isSome_iff_exists.mp h2 with ⟨x2, hx2⟩
  rcases Option.isSome_iff_exists.mp h3 with ⟨x3, hx3⟩
  simp [fsLabeledMetrics, optLabeledMetric, hx1, hx2, hx3]

/-- Every labeled metric of an `optLabeledMetric` block carries exactly the
`resource_id` label it was built with. -/
theorem mem_optLabeledMetric_labels (metricName resourceID : String) (v : Option Nat)
    (lm : LabeledMetric) (h : lm ∈ optLabeledMetric metricName resourceID v) :
    lm.labels = [("resource_id", resourceID)] := by
  cases v with
  | none => exact absurd h (List.not_mem_nil lm)
  | some x =>
    rw [List.mem_singleton.mp h]

/-- Every labeled metric emitted for one filesystem carries exactly its
`resource_id` label. -/
theorem mem_fsLabeledMetrics_labels (resourceID : String) (o : Option FsStats)
    (lm : LabeledMetric) (h : lm ∈ fsLabeledMetrics resourceID o) :
    lm.labels = [("resource_id", resourceID)] := by
  unfold fsLabeledMetrics at h
  rcases List.mem_append.mp h with h' | h'
  · rcases List.mem_append.mp h' with h'' | h''
    · exact mem_optLabeledMetric_labels _ _ _ _ h''
    · exact mem_optLabeledMetric_labels _ _ _ _ h''
  · exact mem_optLabeledMetric_labels _ _ _ _ h'

/-- C4: for a decoded summary whose pod's volumes each carry the three
filesystem statistics, the pod's metric set holds exactly three labeled
metrics per volume (so two full volumes give six and one gives three), and
every one of them carries `resource_id = "Volume:<volume name>"`. -/
theorem decode_volume_labeled_metrics (s : Summary) (p : PodStats)
    (hp : s.pods = [p])
    (hv : ∀ v ∈ p.volumeStats, v.fsStats.availableBytes.isSome ∧
      v.fsStats.capacityBytes.isSome ∧ v.fsStats.usedBytes.isSome) :
    (decodeSummary s).lookup (podKey p.podRef.ns p.podRef.name) = some (podMetricSet p) ∧
    (podMetricSet p).labeledMetrics.length = 3 * p.volumeStats.length ∧
    (∀ lm ∈ (podMetricSet p).labeledMetrics, ∃ v ∈ p.volumeStats,
      lm.labels.lookup "resource_id" = some ("Volume:" ++ v.name)) := by
  refine ⟨?_, ?_, ?_⟩
  · have hdec : decodeSummary s = decodeNodeStats s.node ++ decodePodStats s.node.nodeName p := by
      simp only [decodeSummary, hp, List.map_cons, List.map_nil, List.flatten_cons,
        List.flatten_nil, List.append_nil]
    rw [hdec, lookup_append_of_none _ _ _
      (fun q hq => nodeStats_key_ne s.node _ (podKey_shape _ _) q hq)]
    simp only [decodePodStats, List.lookup, beq_self_eq_true]
  · show ((p.volumeStats.map
        (fun v => fsLabeledMetrics ("Volume:" ++ v.name) (some v.fsStats))).flatten).length = _
    rw [flatten_length_uniform _ 3, List.length_map]
    intro l hl
    rcases List.mem_map.mp hl with ⟨v, hvmem, rfl⟩
    rcases hv v hvmem with ⟨h1, h2, h3⟩
    exact fsLabeledMetrics_full_length _ _ h1 h2 h3
  · intro lm hlm
    rcases List.mem_flatten.mp hlm with ⟨l, hl, hlml⟩
    rcases List.mem_map.mp hl with ⟨v, hvmem, rfl⟩
    refine ⟨v, hvmem, ?_⟩
    rw [mem_fsLabeledMetrics_labels _ _ _ hlml]
    rfl

/-- C4, witness: the pod with full volumes `A` and `B` (available 1030,
used 13240, capacity 2453 each) decodes to a pod metric set with exactly
six `resource_id`-labeled metrics. -/
theorem decode_volume_witness :
    (sampleVolSummary.pods = [sampleVolPod] ∧
      ∀ v ∈ sampleVolPod.volumeStats, v.fsStats.availableBytes.isSome ∧
        v.fsStats.capacityBytes.isSome ∧ v.fsStats.usedBytes.isSome) ∧
    ((decodeSummary sampleVolSummary).lookup (podKey "test0" "pod1") =
        some (podMetricSet sampleVolPod) ∧
      (podMetricSet sampleVolPod).labeledMetrics.length = 6) := by
  refine ⟨⟨rfl, by decide⟩, ?_, ?_⟩
  · exact (decode_volume_labeled_metrics sampleVolSummary sampleVolPod rfl (by decide)).1
  · exact (decode_volume_labeled_metrics sampleVolSummary sampleVolPod rfl (by decide)).2.1

/-- C5: a null statistics pointer produces no metric value at all — each
metric of a decoded container or pod metric set is present exactly when the
corresponding statistic is present in the document, with its value; absent
statistics yield no entry (never a zero). -/
theorem decode_null_statistic_absent (c : ContainerStats) (p : PodStats)
    (setType nodeName containerName : String) :
    ((containerMetricSet setType nodeName containerName c).metricValues.lookup "cpu/usage" =
      (c.cpu.bind CPUStats.usageCoreNanoSeconds).map Int.ofNat) ∧
    ((containerMetricSet setType nodeName containerName c).metricValues.lookup "memory/usage" =
      (c.memory.bind MemoryStats.usageBytes).map Int.ofNat) ∧
    ((containerMetricSet setType nodeName containerName c).metricValues.lookup "memory/working_set" =
      (c.memory.bind MemoryStats.workingSetBytes).map Int.ofNat) ∧
    ((containerMetricSet setType nodeName containerName c).metricValues.lookup "memory/rss" =
      (c.memory.bind MemoryStats.rssBytes).map Int.ofNat) ∧
    ((containerMetricSet setType nodeName containerName c).metricValues.lookup "memory/page_faults" =
      (c.memory.bind MemoryStats.pageFaults).map Int.ofNat) ∧
    ((containerMetricSet setType nodeName containerName c).metricValues.lookup "memory/major_page_faults" =
      (c.memory.bind MemoryStats.majorPageFaults).map Int.ofNat) ∧
    ((podMetricSet p).metricValues.lookup "network/rx" =
      (p.network.bind NetworkStats.rxBytes).map Int.ofNat) ∧
    ((podMetricSet p).metricValues.lookup "network/rx_errors" =
      (p.network.bind NetworkStats.rxErrors).map Int.ofNat) ∧
    ((podMetricSet p).metricValues.lookup "network/tx" =
      (p.network.bind NetworkStats.txBytes).map Int.ofNat) ∧
    ((podMetricSet p).metricValues.lookup "network/tx_errors" =
      (p.network.bind NetworkStats.txErrors).map Int.ofNat) := by
  simp only [containerMetricSet, podMetricSet, cpuMetrics, memoryMetrics, networkMetrics,
    List.append_assoc]
  refine ⟨?_, ?_, ?_, ?_, ?_, ?_, ?_, ?_, ?_, ?_⟩
  · exact lookup_optMetric_found _ _ _
      (lookup_append_none _ _ _ (lookup_optMetric_none _ _ _ (by decide))
        (lookup_append_none _ _ _ (lookup_optMetric_none _ _ _ (by decide))
          (lookup_append_none _ _ _ (lookup_optMetric_none _ _ _ (by decide))
            (lookup_append_none _ _ _ (lookup_optMetric_none _ _ _ (by decide))
              (lookup_optMetric_none _ _ _ (by decide))))))
  · rw [lookup_optMetric_skip _ _ _ _ (by decide)]
    exact lookup_optMetric_found _ _ _
      (lookup_append_none _ _ _ (lookup_optMetric_none _ _ _ (by decide))
        (lookup_append_none _ _ _ (lookup_optMetric_none _ _ _ (by decide))
          (lookup_append_none _ _ _ (lookup_optMetric_none _ _ _ (by decide))
            (lookup_optMetric_none _ _ _ (by decide)))))
  · rw [lookup_optMetric_skip _ _ _ _ (by decide), lookup_optMetric_skip _ _ _ _ (by decide)]
    exact lookup_optMetric_found _ _ _
      (lookup_append_none _ _ _ (lookup_optMetric_none _ _ _ (by decide))
        (lookup_append_none _ _ _ (lookup_optMetric_none _ _ _ (by decide))
          (lookup_optMetric_none _ _ _ (by decide))))
  · rw [lookup_optMetric_skip _ _ _ _ (by decide), lookup_optMetric_skip _ _ _ _ (by decide),
      lookup_optMetric_skip _ _ _ _ (by decide)]
    exact lookup_optMetric_found _ _ _
      (lookup_append_none _ _ _ (lookup_optMetric_none _ _ _ (by decide))
        (lookup_optMetric_none _ _ _ (by decide)))
  · rw [lookup_optMetric_skip _ _ _ _ (by decide), lookup_optMetric_skip _ _ _ _ (by decide),
      lookup_optMetric_skip _ _ _ _ (by decide), lookup_optMetric_skip _ _ _ _ (by decide)]
    exact lookup_optMetric_found _ _ _ (lookup_optMetric_none _ _ _ (by decide))
  · rw [lookup_optMetric_skip _ _ _ _ (by decide), lookup_optMetric_skip _ _ _ _ (by decide),
      lookup_optMetric_skip _ _ _ _ (by decide), lookup_optMetric_skip _ _ _ _ (by decide),
      lookup_optMetric_skip _ _ _ _ (by decide)]
    exact lookup_optMetric_self _ _
  · exact lookup_optMetric_found _ _ _
      (lookup_append_none _ _ _ (lookup_optMetric_none _ _ _ (by decide))
        (lookup_append_none _ _ _ (lookup_optMetric_none _ _ _ (by decide))
          (lookup_optMetric_none _ _ _ (by decide))))
  · rw [lookup_optMetric_skip _ _ _ _ (by decide)]
    exact lookup_optMetric_found _ _ _
      (lookup_append_none _ _ _ (lookup_optMetric_none _ _ _ (by decide))
        (lookup_optMetric_none _ _ _ (by decide)))
  · rw [lookup_optMetric_skip _ _ _ _ (by decide), lookup_optMetric_skip _ _ _ _ (by decide)]
    exact lookup_optMetric_found _ _ _ (lookup_optMetric_none _ _ _ (by decide))
  · rw [lookup_optMetric_skip _ _ _ _ (by decide), lookup_optMetric_skip _ _ _ _ (by decide),
      lookup_optMetric_skip _ _ _ _ (by decide)]
    exact lookup_optMetric_self _ _

/-- C10: evaluating `ExportEvents` on a batch with one event whose JSON
serialisation fails: `eventToPoint` returns a nil point, and the export then
dereferences it (`point.EventTimestamp`), modelled by the `none` outcome —
the export does not complete safely. -/
theorem exportEvents_nil_pointer_panic :
    (eventToPoint badEvent).1 = none ∧ exportEvents [badEvent] = none := by
  exact ⟨rfl, rfl⟩
